import Mathlib

/-!
Verification of the complexity-analysis core of the algorithm-analysis
repository: a shallow embedding, in Lean 4, of the AST data model
(app/parsing/ast_nodes.py), of the expression folds of the tree builder
(app/parsing/transformer.py), of the structural analyzers
(app/analysis/tools/ast_analyzer.py) and of the complexity resolvers
(app/analysis/tools/master_theorem.py, substitution.py, summation_solver.py),
together with theorems settling the behavioural claims about them.

Python strings are modelled as Lean String (lists of characters); the
narrow regular expressions of the resolvers are embedded as explicit
character-level matchers with the same backtracking behaviour on their
fixed patterns; Python dictionaries returned by the tools are modelled as
structures whose optional fields are absent (none) exactly when the Python
dict omits the key; Python exceptions are modelled with Except.
-/

namespace AlgoAnalysis

/-! ## Character and string helpers (models of Python str primitives) -/

/-- Model of the character class matched by a regex whitespace item and of the
characters stripped by str.strip / split: the six ASCII whitespace characters.
(The inputs handled by the resolvers are ASCII; the extra Unicode whitespace
of Python never occurs in them.) -/
def isPySpace (c : Char) : Bool :=
  c = ' ' || c = '\t' || c = '\n' || c = '\r' || c = '\x0b' || c = '\x0c'

/-- Model of a maximal greedy whitespace run consumed by a regex. -/
def dropSpaces (l : List Char) : List Char :=
  l.dropWhile isPySpace

/-- ASCII decimal digit, the character class of a regex digit item. -/
def isDigitC (c : Char) : Bool :=
  '0' ≤ c && c ≤ '9'

/-- Model of int() on a run of ASCII digits. -/
def digitsToNat (l : List Char) : Nat :=
  l.foldl (fun acc c => 10 * acc + (c.toNat - 48)) 0

/-- Model of a literal token inside a regex: consume it or fail. -/
def stripLit (lit : List Char) (l : List Char) : Option (List Char) :=
  if lit.isPrefixOf l then some (l.drop lit.length) else none

/-- The ASCII decimal digit character of a value below ten. -/
def decDigit (d : Nat) : Char :=
  if d = 0 then '0' else if d = 1 then '1' else if d = 2 then '2'
  else if d = 3 then '3' else if d = 4 then '4' else if d = 5 then '5'
  else if d = 6 then '6' else if d = 7 then '7' else if d = 8 then '8' else '9'

/-- Decimal digits of a nonnegative integer; the fuel is structural and, one
more than the value, never runs out (each step divides the value by ten). -/
def natToCharsAux : Nat → Nat → List Char
  | 0, _ => []
  | fuel + 1, n =>
    if n < 10 then [decDigit n]
    else natToCharsAux fuel (n / 10) ++ [decDigit (n % 10)]

/-- Model of str(n) for a nonnegative integer: decimal digits, no sign. -/
def natToChars (n : Nat) : List Char :=
  natToCharsAux (n + 1) n

/-- Model of str(n) for a nonnegative integer, as a String. -/
def natStr (n : Nat) : String :=
  (natToChars n).asString

/-- Model of str(i) for a Python int. -/
def intToChars (i : Int) : List Char :=
  if i < 0 then '-' :: natToChars i.natAbs else natToChars i.natAbs

/-- Model of str(i) for a Python int, as a String. -/
def intStr (i : Int) : String :=
  (intToChars i).asString

/-- Model of str.strip(): remove leading and trailing whitespace. -/
def pyStrip (l : List Char) : List Char :=
  ((l.dropWhile isPySpace).reverse.dropWhile isPySpace).reverse

/-- Model of str.strip() on a String. -/
def pyStripS (s : String) : String :=
  (pyStrip s.toList).asString

/-- Model of the Python substring test (pat in hay): scan left to right. -/
def hasSubstr (pat : List Char) : List Char → Bool
  | [] => pat.isEmpty
  | c :: rest => pat.isPrefixOf (c :: rest) || hasSubstr pat rest

/-- Model of the Python substring test on Strings. -/
def hasSubstrS (pat hay : String) : Bool :=
  hasSubstr pat.toList hay.toList

/-- Model of str.replace(".00", ""): remove each left-to-right,
non-overlapping occurrence of the three characters dot-zero-zero. -/
def replaceDot00 (l : List Char) : List Char :=
  match l with
  | [] => []
  | c :: r1 :: r2 :: rest2 =>
    if c = '.' ∧ r1 = '0' ∧ r2 = '0' then replaceDot00 rest2
    else c :: replaceDot00 (r1 :: r2 :: rest2)
  | c :: rest => c :: replaceDot00 rest

/-- Model of str.replace(".00", "") on a String. -/
def pyReplaceDot00 (s : String) : String :=
  (replaceDot00 s.toList).asString

/-- Model of str.lower() restricted to ASCII letters; the lookup keys it is
compared against are ASCII (plus the superscript digits, which lower() leaves
unchanged), so the restriction is observationally equivalent. -/
def asciiLowerChar (c : Char) : Char :=
  if 'A' ≤ c ∧ c ≤ 'Z' then Char.ofNat (c.toNat + 32) else c

/-- Model of str.lower() on a String. -/
def pyLower (s : String) : String :=
  (s.toList.map asciiLowerChar).asString

/-! Exact rational arithmetic, written on the numerator/denominator pair so
that every value below evaluates by kernel reduction (the library's rational
operations are irreducible); mkRat normalizes, so each function equals the
textbook operation on ℚ. -/

/-- The rational n / 1. -/
def qOfNat (n : Nat) : ℚ := mkRat n 1

/-- The rational i / 1. -/
def qOfInt (i : Int) : ℚ := mkRat i 1

/-- Exact product of two rationals. -/
def qMul (a b : ℚ) : ℚ := mkRat (a.num * b.num) (a.den * b.den)

/-- Exact difference of two rationals. -/
def qSub (a b : ℚ) : ℚ :=
  mkRat (a.num * (b.den : Int) - b.num * (a.den : Int)) (a.den * b.den)

/-- Exact absolute value of a rational. -/
def qAbs (q : ℚ) : ℚ := if q.num < 0 then mkRat (-q.num) q.den else q

/-! ## Master Theorem resolver (app/analysis/tools/master_theorem.py)

The four accepted recurrence shapes are fixed regular expressions; each is
embedded as a matcher that attempts the pattern at one position, plus a
scanner that mirrors re.search by trying every start position from the left.
-/

/-- The lazy group of a pattern that reads one-or-more characters up to a
closing parenthesis: the shortest nonempty run of characters (none of them a
newline, since the dot item does not match newlines) followed by the literal
closing parenthesis.  Returns the group and the remainder after it. -/
def lazyGroupParen (l : List Char) : Option (List Char × List Char) :=
  let grp := l.takeWhile (fun c => c ≠ ')' && c ≠ '\n')
  match l.drop grp.length with
  | ')' :: rest => if grp.isEmpty then none else some (grp, rest)
  | _ => none

/-- The trailing group of a pattern ending in whitespace-then-rest: greedy
whitespace followed by a greedy one-or-more run of non-newline characters,
with the regex backtracking over the whitespace when nothing follows it.
The argument m is the number of whitespace characters currently consumed. -/
def tailGroupAux (l : List Char) : Nat → Option (List Char)
  | 0 =>
    match l with
    | [] => none
    | c :: rest =>
      if c = '\n' then none
      else some ((c :: rest).takeWhile (fun ch => ch ≠ '\n'))
  | m + 1 =>
    match l.drop (m + 1) with
    | [] => tailGroupAux l m
    | c :: rest =>
      if c = '\n' then tailGroupAux l m
      else some ((c :: rest).takeWhile (fun ch => ch ≠ '\n'))

/-- The trailing whitespace-then-rest group, starting from the maximal
whitespace run. -/
def tailGroup (l : List Char) : Option (List Char) :=
  tailGroupAux l (l.takeWhile isPySpace).length

/-- Pattern 1 of extract_recurrence_params, attempted at one position:
the recurrence shape with an explicit coefficient and an order wrapper. -/
def matchP1At (l : List Char) : Option (Nat × Nat × List Char) := do
  let l ← stripLit "T(n)".toList l
  let l := dropSpaces l
  let l ← stripLit "=".toList l
  let l := dropSpaces l
  let ds := l.takeWhile isDigitC
  if ds.isEmpty then none else
  let l := l.drop ds.length
  let l := dropSpaces l
  let l := match stripLit "*".toList l with
    | some l2 => l2
    | none => l
  let l := dropSpaces l
  let l ← stripLit "T(n/".toList l
  let ds2 := l.takeWhile isDigitC
  if ds2.isEmpty then none else
  let l := l.drop ds2.length
  let l ← stripLit ")".toList l
  let l := dropSpaces l
  let l ← stripLit "+".toList l
  let l := dropSpaces l
  let l ← stripLit "O(".toList l
  let (grp, _) ← lazyGroupParen l
  some (digitsToNat ds, digitsToNat ds2, grp)

/-- Pattern 2, attempted at one position: no coefficient, with order wrapper. -/
def matchP2At (l : List Char) : Option (Nat × List Char) := do
  let l ← stripLit "T(n)".toList l
  let l := dropSpaces l
  let l ← stripLit "=".toList l
  let l := dropSpaces l
  let l ← stripLit "T(n/".toList l
  let ds := l.takeWhile isDigitC
  if ds.isEmpty then none else
  let l := l.drop ds.length
  let l ← stripLit ")".toList l
  let l := dropSpaces l
  let l ← stripLit "+".toList l
  let l := dropSpaces l
  let l ← stripLit "O(".toList l
  let (grp, _) ← lazyGroupParen l
  some (digitsToNat ds, grp)

/-- Pattern 3, attempted at one position: explicit coefficient, no order
wrapper; the cost is the trailing run of the line. -/
def matchP3At (l : List Char) : Option (Nat × Nat × List Char) := do
  let l ← stripLit "T(n)".toList l
  let l := dropSpaces l
  let l ← stripLit "=".toList l
  let l := dropSpaces l
  let ds := l.takeWhile isDigitC
  if ds.isEmpty then none else
  let l := l.drop ds.length
  let l := dropSpaces l
  let l := match stripLit "*".toList l with
    | some l2 => l2
    | none => l
  let l := dropSpaces l
  let l ← stripLit "T(n/".toList l
  let ds2 := l.takeWhile isDigitC
  if ds2.isEmpty then none else
  let l := l.drop ds2.length
  let l ← stripLit ")".toList l
  let l := dropSpaces l
  let l ← stripLit "+".toList l
  let grp ← tailGroup l
  some (digitsToNat ds, digitsToNat ds2, grp)

/-- Pattern 4, attempted at one position: no coefficient, no order wrapper. -/
def matchP4At (l : List Char) : Option (Nat × List Char) := do
  let l ← stripLit "T(n)".toList l
  let l := dropSpaces l
  let l ← stripLit "=".toList l
  let l := dropSpaces l
  let l ← stripLit "T(n/".toList l
  let ds := l.takeWhile isDigitC
  if ds.isEmpty then none else
  let l := l.drop ds.length
  let l ← stripLit ")".toList l
  let l := dropSpaces l
  let l ← stripLit "+".toList l
  let grp ← tailGroup l
  some (digitsToNat ds, grp)

/-- re.search for pattern 1: leftmost start position that matches. -/
def searchP1 : List Char → Option (Nat × Nat × List Char)
  | [] => matchP1At []
  | c :: rest =>
    match matchP1At (c :: rest) with
    | some r => some r
    | none => searchP1 rest

/-- re.search for pattern 2. -/
def searchP2 : List Char → Option (Nat × List Char)
  | [] => matchP2At []
  | c :: rest =>
    match matchP2At (c :: rest) with
    | some r => some r
    | none => searchP2 rest

/-- re.search for pattern 3. -/
def searchP3 : List Char → Option (Nat × Nat × List Char)
  | [] => matchP3At []
  | c :: rest =>
    match matchP3At (c :: rest) with
    | some r => some r
    | none => searchP3 rest

/-- re.search for pattern 4. -/
def searchP4 : List Char → Option (Nat × List Char)
  | [] => matchP4At []
  | c :: rest =>
    match matchP4At (c :: rest) with
    | some r => some r
    | none => searchP4 rest

/-- The parameters of a divide-and-conquer recurrence, as extracted by
extract_recurrence_params. -/
structure RecParams where
  a : Nat
  b : Nat
  f_n : String
deriving DecidableEq, Repr

/-- extract_recurrence_params: strip the input, then try the four accepted
textual shapes in order, defaulting the coefficient to one when absent. -/
def extract_recurrence_params (recurrence : String) : Option RecParams :=
  let l := pyStrip recurrence.toList
  match searchP1 l with
  | some (a, b, f) => some ⟨a, b, (pyStrip f).asString⟩
  | none =>
  match searchP2 l with
  | some (b, f) => some ⟨1, b, (pyStrip f).asString⟩
  | none =>
  match searchP3 l with
  | some (a, b, f) => some ⟨a, b, (pyStrip f).asString⟩
  | none =>
  match searchP4 l with
  | some (b, f) => some ⟨1, b, (pyStrip f).asString⟩
  | none => none

/-- The fixed lookup of known function orders of compare_functions
(function_orders.get).  The float constants of the source are exact decimal
literals; they are modelled as the corresponding rationals (the table values
are only ever compared against exactly-representable values, so the binary
rounding of the literal 1.1 is never observable in the theorems below). -/
def function_orders_get (s : String) : Option ℚ :=
  if s = "1" then some (qOfNat 0)
  else if s = "log n" then some (mkRat 1 2)
  else if s = "n" then some (qOfNat 1)
  else if s = "n log n" then some (mkRat 11 10)
  else if s = "n²" then some (qOfNat 2)
  else if s = "n^2" then some (qOfNat 2)
  else if s = "n³" then some (qOfNat 3)
  else if s = "n^3" then some (qOfNat 3)
  else none

/-- The exponent-extraction pattern of compare_functions, attempted at one
position: the letter n, an optional caret, then one-or-more digits (greedy). -/
def matchOrderExpAt : List Char → Option Nat
  | 'n' :: '^' :: rest =>
    let ds := rest.takeWhile isDigitC
    if ds.isEmpty then none else some (digitsToNat ds)
  | 'n' :: rest =>
    let ds := rest.takeWhile isDigitC
    if ds.isEmpty then none else some (digitsToNat ds)
  | _ => none

/-- re.search for the exponent-extraction pattern. -/
def searchOrderExp : List Char → Option Nat
  | [] => matchOrderExpAt []
  | c :: rest =>
    match matchOrderExpAt (c :: rest) with
    | some r => some r
    | none => searchOrderExp rest

/-- The comparison epsilon of compare_functions. -/
def epsilonMT : ℚ := mkRat 1 100

/-- compare_functions: classify the order of f(n) against log_b(a), using
the fixed lookup, then an extracted explicit exponent, then the default of
case 2 when the order cannot be determined. -/
def compare_functions (f_n : String) (n_log_b_a : ℚ) : String :=
  let f_order : Option ℚ :=
    match function_orders_get (pyLower f_n) with
    | some q => some q
    | none => (searchOrderExp f_n.toList).map qOfNat
  match f_order with
  | none => "case2"
  | some f_order =>
    if f_order < qSub n_log_b_a epsilonMT then "case1"
    else if qAbs (qSub f_order n_log_b_a) < epsilonMT then "case2"
    else "case3"

/-- The Python float exceptions that the log computation of
apply_master_theorem can raise. -/
inductive PyFloatErr where
  | valueError
  | zeroDivisionError
deriving DecidableEq, Repr

/-- Model of the IEEE-double value math.log(a) / math.log(b) for a, b that do
not raise (a ≥ 1, b ≥ 2).  The value is exact on the subdomain every theorem
below depends on: it is exactly 0 when a = 1 (math.log(1) is exactly 0.0 and
0.0 divided by a nonzero float is exactly 0.0), and exactly 1 when a = b
(a nonzero finite float divided by itself is exactly 1.0).  Outside that
subdomain the double is irrational-valued and is approximated here by the
integer logarithm; no theorem below depends on the value in that region
beyond its being some rational. -/
def floatLogDiv (a b : Nat) : ℚ :=
  if a = 1 then qOfNat 0 else if a = b then qOfNat 1 else qOfNat (Nat.log b a)

/-- Model of the computation math.log(a) / math.log(b) including its error
behaviour: math.log(0) raises ValueError (math domain error), and division by
math.log(1) = 0.0 raises ZeroDivisionError. -/
def mathLogDiv (a b : Nat) : Except PyFloatErr ℚ :=
  if a = 0 then .error .valueError
  else if b = 0 then .error .valueError
  else if b = 1 then .error .zeroDivisionError
  else .ok (floatLogDiv a b)

/-- Round-half-even to an integer, the rounding used by Python round() and by
the two-decimal float format. -/
def roundHalfEvenInt (q : ℚ) : ℤ :=
  let f := q.floor
  let r := qSub q (qOfInt f)
  if r < mkRat 1 2 then f
  else if mkRat 1 2 < r then f + 1
  else if f % 2 = 0 then f else f + 1

/-- Model of round(q, 2). -/
def roundQ2 (q : ℚ) : ℚ :=
  mkRat (roundHalfEvenInt (qMul q (qOfNat 100))) 100

/-- Model of the two-decimal float format: the value rounded half-even at the
second decimal, rendered as digits, a dot, and exactly two decimal digits.
(Every value formatted by the code is nonnegative: log_b(a) ≥ 0 whenever the
log computation did not raise.) -/
def fmt2 (q : ℚ) : String :=
  let m := (roundHalfEvenInt (qMul q (qOfNat 100))).toNat
  (natToChars (m / 100)).asString ++ "." ++
    (natToChars (m % 100 / 10)).asString ++ (natToChars (m % 10)).asString

/-- The result record of apply_master_theorem; optional fields are none
exactly when the corresponding Python dict omits the key. -/
structure MTResult where
  success : Bool
  case : Option Nat
  a : Option Nat
  b : Option Nat
  f_n : Option String
  log_b_a : Option ℚ
  complexity : Option String
  explanation : Option String
  error : Option String
  recurrence : Option String
deriving DecidableEq, Repr

/-- Decidable equality of fallible results, used to evaluate the theorems
about apply_master_theorem on concrete inputs. -/
instance {ε α : Type} [DecidableEq ε] [DecidableEq α] : DecidableEq (Except ε α) :=
  fun x y =>
    match x, y with
    | .ok a, .ok b =>
      if h : a = b then .isTrue (by rw [h]) else .isFalse (by simp [h])
    | .error a, .error b =>
      if h : a = b then .isTrue (by rw [h]) else .isFalse (by simp [h])
    | .ok _, .error _ => .isFalse (by simp)
    | .error _, .ok _ => .isFalse (by simp)

/-- apply_master_theorem: extract the parameters, compute log_b(a) (which can
raise, modelled as Except), classify the case, and build the result record. -/
def apply_master_theorem (recurrence : String) : Except PyFloatErr MTResult :=
  match extract_recurrence_params recurrence with
  | none => .ok ⟨false, none, none, none, none, none, none, none,
      some "No se pudo parsear la recurrencia. Debe ser de la forma T(n) = aT(n/b) + O(f(n))",
      some recurrence⟩
  | some p =>
    match mathLogDiv p.a p.b with
    | .error e => .error e
    | .ok log_b_a =>
      let case := compare_functions p.f_n log_b_a
      if case = "case1" then
        let complexity := pyReplaceDot00 ("n^" ++ fmt2 log_b_a)
        .ok ⟨true, some 1, some p.a, some p.b, some p.f_n, some (roundQ2 log_b_a),
          some complexity,
          some ("Caso 1: f(n) = O(" ++ p.f_n ++ ") < n^(log_" ++ natStr p.b ++
            "(" ++ natStr p.a ++ ")) = n^" ++ fmt2 log_b_a ++
            ". Por lo tanto, T(n) = Θ(" ++ complexity ++ ")"),
          none, none⟩
      else if case = "case2" then
        let complexity :=
          if log_b_a = qOfNat 1 then "n log n"
          else pyReplaceDot00 ("n^" ++ fmt2 log_b_a ++ " log n")
        .ok ⟨true, some 2, some p.a, some p.b, some p.f_n, some (roundQ2 log_b_a),
          some complexity,
          some ("Caso 2: f(n) = Θ(" ++ p.f_n ++ ") = Θ(n^(log_" ++ natStr p.b ++
            "(" ++ natStr p.a ++ "))). Por lo tanto, T(n) = Θ(" ++ complexity ++ ")"),
          none, none⟩
      else
        .ok ⟨true, some 3, some p.a, some p.b, some p.f_n, some (roundQ2 log_b_a),
          some p.f_n,
          some ("Caso 3: f(n) = Ω(" ++ p.f_n ++ ") > n^(log_" ++ natStr p.b ++
            "(" ++ natStr p.a ++ ")) = n^" ++ fmt2 log_b_a ++
            ". Por lo tanto, T(n) = Θ(" ++ p.f_n ++ ")"),
          none, none⟩

/-! ## Substitution resolver (app/analysis/tools/substitution.py) -/

/-- The pattern of extract_linear_recurrence, attempted at one position:
the linear shape with a decrement and an order wrapper around the cost. -/
def matchLinAt (l : List Char) : Option (Nat × List Char) := do
  let l ← stripLit "T(n)".toList l
  let l := dropSpaces l
  let l ← stripLit "=".toList l
  let l := dropSpaces l
  let l ← stripLit "T(n".toList l
  let l := dropSpaces l
  let l ← stripLit "-".toList l
  let l := dropSpaces l
  let ds := l.takeWhile isDigitC
  if ds.isEmpty then none else
  let l := l.drop ds.length
  let l ← stripLit ")".toList l
  let l := dropSpaces l
  let l ← stripLit "+".toList l
  let l := dropSpaces l
  let l ← stripLit "O(".toList l
  let (grp, _) ← lazyGroupParen l
  some (digitsToNat ds, grp)

/-- re.search for the linear-recurrence pattern. -/
def searchLin : List Char → Option (Nat × List Char)
  | [] => matchLinAt []
  | c :: rest =>
    match matchLinAt (c :: rest) with
    | some r => some r
    | none => searchLin rest

/-- The parameters extracted by extract_linear_recurrence. -/
structure LinParams where
  decrement : Nat
  cost : String
deriving DecidableEq, Repr

/-- extract_linear_recurrence: match the linear shape anywhere in the input. -/
def extract_linear_recurrence (recurrence : String) : Option LinParams :=
  match searchLin recurrence.toList with
  | some (d, cost) => some ⟨d, (pyStrip cost).asString⟩
  | none => none

/-- generate_substitution_steps: the initial equation followed by one line per
unrolling iteration (iterations one up to, excluding, the step count). -/
def generate_substitution_steps (decrement : Nat) (cost : String) (steps : Nat) :
    List String :=
  ["T(n) = T(n-" ++ natStr decrement ++ ") + " ++ cost] ++
    ((List.range steps).drop 1).map (fun i =>
      let k := decrement * i
      let accumulated :=
        if cost = "1" then natStr i ++ "·c" else natStr i ++ "·" ++ cost
      "T(n) = T(n-" ++ natStr k ++ ") + " ++ accumulated)

/-- determine_pattern: the general unrolled form of the recurrence. -/
def determine_pattern (decrement : Nat) (cost : String) : String :=
  if cost = "1" then "T(n) = T(0) + (n/" ++ natStr decrement ++ ")·c"
  else "T(n) = T(0) + (n/" ++ natStr decrement ++ ")·" ++ cost

/-- calculate_complexity_from_pattern: the fixed cost-to-complexity table. -/
def calculate_complexity_from_pattern (decrement : Nat) (cost : String) : String :=
  let levels := if decrement > 1 then "n/" ++ natStr decrement else "n"
  if cost = "1" then "O(n)"
  else if cost = "n" then "O(n²)"
  else if cost = "log n" then "O(n log n)"
  else "O(" ++ levels ++ " × " ++ cost ++ ")"

/-- The result record of solve_by_substitution; optional fields are none
exactly when the corresponding Python dict omits the key. -/
structure SubstResult where
  success : Bool
  recurrence : Option String
  decrement : Option Nat
  cost : Option String
  steps : Option (List String)
  pattern : Option String
  complexity : Option String
  explanation : Option String
  error : Option String
deriving DecidableEq, Repr

/-- solve_by_substitution: extract the linear parameters, produce the
four-line unrolling trace, the general pattern, the final complexity and the
narrative explanation. -/
def solve_by_substitution (recurrence : String) : SubstResult :=
  match extract_linear_recurrence recurrence with
  | none =>
    ⟨false, some recurrence, none, none, none, none, none, none,
      some "No se pudo parsear la recurrencia. Debe ser lineal: T(n) = T(n-k) + O(f(n))"⟩
  | some p =>
    let decrement := p.decrement
    let cost := p.cost
    let steps := generate_substitution_steps decrement cost 4
    let pattern := determine_pattern decrement cost
    let complexity := calculate_complexity_from_pattern decrement cost
    let explanation_parts :=
      ["Aplicando método de sustitución:",
       "Expandimos la recurrencia " ++ natStr 4 ++ " veces:"] ++
      steps.map (fun step => "  " ++ step) ++
      ["",
       "Observamos el patrón: " ++ pattern,
       "Con n/" ++ natStr decrement ++ " niveles hasta llegar al caso base",
       "Por lo tanto: " ++ complexity]
    ⟨true, some recurrence, some decrement, some cost, some steps, some pattern,
      some complexity, some (String.intercalate "\n" explanation_parts), none⟩

/-! ## Summation resolver (app/analysis/tools/summation_solver.py) -/

/-- A known summation pattern: the text the escaped regex literal matches,
its closed formula, its complexity and its description. -/
structure SummationPattern where
  pattern : String
  formula : String
  complexity : String
  description : String
deriving DecidableEq, Repr

/-- The fixed library of known closed-form summation patterns.  Each Python
pattern is a regular expression whose metacharacters are all escaped, so
re.search with it is exactly a substring test for the literal stored here. -/
def KNOWN_PATTERNS : List SummationPattern :=
  [⟨"Σ(i=1 to n) O(1)", "n", "O(n)", "Sumatoria de constante n veces"⟩,
   ⟨"Σ(i=1 to n) 1", "n", "O(n)", "Sumatoria de 1 desde 1 hasta n"⟩,
   ⟨"Σ(i=1 to n) i", "n(n+1)/2", "O(n²)", "Suma aritmética: 1+2+3+...+n"⟩,
   ⟨"Σ(i=1 to n) i^2", "n(n+1)(2n+1)/6", "O(n³)", "Suma de cuadrados"⟩,
   ⟨"Σ(i=1 to n) i^3", "[n(n+1)/2]²", "O(n⁴)", "Suma de cubos"⟩,
   ⟨"Σ(i=1 to n) 2^i", "2^(n+1) - 2", "O(2^n)", "Serie geométrica con r=2"⟩,
   ⟨"Σ(i=0 to log n) 2^i", "2n - 1", "O(n)", "Serie geométrica hasta log n"⟩]

/-- Model of the word-character class of the second normalization pattern,
restricted to ASCII; the group it captures only ever holds ASCII word
characters in the summation texts the resolver accepts. -/
def isWordChar (c : Char) : Bool :=
  c.isAlphanum || c = '_'

/-- Model of str.split(): maximal runs of non-whitespace characters.  The
fuel is structural; one more than the length never runs out, as each step
consumes at least one character. -/
def pySplitWsAux : Nat → List Char → List (List Char)
  | 0, _ => []
  | _ + 1, [] => []
  | fuel + 1, c :: rest =>
    if isPySpace c then pySplitWsAux fuel rest
    else
      (c :: rest.takeWhile (fun ch => !isPySpace ch)) ::
        pySplitWsAux fuel (rest.drop (rest.takeWhile (fun ch => !isPySpace ch)).length)

/-- Model of str.split() at adequate fuel. -/
def pySplitWs (l : List Char) : List (List Char) :=
  pySplitWsAux (l.length + 1) l

/-- The length of what dropSpaces keeps is at most the input length. -/
theorem dropSpaces_length_le (l : List Char) : (dropSpaces l).length ≤ l.length := by
  unfold dropSpaces
  induction l with
  | nil => simp
  | cons c rest ih =>
    by_cases h : isPySpace c
    · simp [List.dropWhile_cons, h]
      omega
    · simp [List.dropWhile_cons, h]

/-- A successful nonempty-literal strip consumes at least one character. -/
theorem stripLit_length_lt (lit l l2 : List Char) (hne : lit ≠ [])
    (h : stripLit lit l = some l2) : l2.length < l.length := by
  unfold stripLit at h
  split at h
  · rename_i hp
    have hle := (List.isPrefixOf_iff_prefix.mp hp).length_le
    have h0 : 0 < lit.length := List.length_pos.mpr hne
    obtain rfl : l.drop lit.length = l2 := by simpa using h
    simp [List.length_drop]
    omega
  · simp at h

/-- The first normalization substitution, attempted at one position: the
letter O, optional spaces, an opening parenthesis, optional spaces, the digit
one, optional spaces, a closing parenthesis.  Returns the remainder. -/
def matchOSub1At (l : List Char) : Option (List Char) := do
  let l ← stripLit "O".toList l
  let l := dropSpaces l
  let l ← stripLit "(".toList l
  let l := dropSpaces l
  let l ← stripLit "1".toList l
  let l := dropSpaces l
  let l ← stripLit ")".toList l
  some l

/-- The second normalization substitution, attempted at one position: the
letter O, optional spaces, an opening parenthesis, optional spaces, a
one-or-more run of word characters (the group), optional spaces, a closing
parenthesis.  Returns the group and the remainder. -/
def matchOSub2At (l : List Char) : Option (List Char × List Char) := do
  let l ← stripLit "O".toList l
  let l := dropSpaces l
  let l ← stripLit "(".toList l
  let l := dropSpaces l
  let g := l.takeWhile isWordChar
  if g.isEmpty then none else
  let l := dropSpaces (l.drop g.length)
  let l ← stripLit ")".toList l
  some (g, l)

/-- A successful first-substitution match consumes at least one character. -/
theorem matchOSub1At_length (l rem : List Char) (h : matchOSub1At l = some rem) :
    rem.length < l.length := by
  simp only [matchOSub1At, Option.bind_eq_bind, Option.bind_eq_some] at h
  obtain ⟨a, ha, b, hb, c, hc, d, hd, he⟩ := h
  have h1 := stripLit_length_lt _ _ _ (by simp) ha
  have h2 := dropSpaces_length_le a
  have h3 := stripLit_length_lt _ _ _ (by simp) hb
  have h4 := dropSpaces_length_le b
  have h5 := stripLit_length_lt _ _ _ (by simp) hc
  have h6 := dropSpaces_length_le c
  have h7 := stripLit_length_lt _ _ _ (by simp) hd
  cases he
  omega

/-- A successful second-substitution match consumes at least one character. -/
theorem matchOSub2At_length (l g rem : List Char)
    (h : matchOSub2At l = some (g, rem)) : rem.length < l.length := by
  simp only [matchOSub2At, Option.bind_eq_bind, Option.bind_eq_some] at h
  obtain ⟨a, ha, b, hb, h⟩ := h
  have h1 := stripLit_length_lt _ _ _ (by simp) ha
  have h2 := dropSpaces_length_le a
  have h3 := stripLit_length_lt _ _ _ (by simp) hb
  split at h
  · simp at h
  · simp only [Option.bind_eq_bind, Option.bind_eq_some] at h
    obtain ⟨c, hc, hd⟩ := h
    have h4 : ((dropSpaces b).drop ((dropSpaces b).takeWhile isWordChar).length).length
        ≤ b.length := by
      have h5 := dropSpaces_length_le b
      have h6 : ((dropSpaces b).drop
          ((dropSpaces b).takeWhile isWordChar).length).length ≤ (dropSpaces b).length := by
        simp [List.length_drop]
      omega
    have h7 := dropSpaces_length_le ((dropSpaces b).drop
      ((dropSpaces b).takeWhile isWordChar).length)
    have h8 := stripLit_length_lt _ _ _ (by simp) hc
    cases hd
    omega

/-- Global application of the first normalization substitution, scanning left
to right and replacing each non-overlapping match.  The fuel is structural;
one more than the length never runs out: a step over a non-match consumes one
character, and a match consumes at least one (matchOSub1At_length above). -/
def subO1Aux : Nat → List Char → List Char
  | 0, _ => []
  | _ + 1, [] => []
  | fuel + 1, c :: rest =>
    match matchOSub1At (c :: rest) with
    | some rem => "O(1)".toList ++ subO1Aux fuel rem
    | none => c :: subO1Aux fuel rest

/-- The first normalization substitution applied globally, at adequate fuel. -/
def subO1 (l : List Char) : List Char :=
  subO1Aux (l.length + 1) l

/-- Global application of the second normalization substitution, with the
same fuel bound (matchOSub2At_length above). -/
def subO2Aux : Nat → List Char → List Char
  | 0, _ => []
  | _ + 1, [] => []
  | fuel + 1, c :: rest =>
    match matchOSub2At (c :: rest) with
    | some (g, rem) => 'O' :: '(' :: (g ++ ')' :: subO2Aux fuel rem)
    | none => c :: subO2Aux fuel rest

/-- The second normalization substitution applied globally, at adequate fuel. -/
def subO2 (l : List Char) : List Char :=
  subO2Aux (l.length + 1) l

/-- normalize_summation: collapse whitespace runs to single spaces, then apply
the two order-wrapper normalizations. -/
def normalize_summation (summation : String) : String :=
  let joined :=
    String.intercalate " " ((pySplitWs summation.toList).map List.asString)
  (subO2 (subO1 joined.toList)).asString

/-- The components of a nested double summation, as identified by
identify_nested_summation. -/
structure NestedInfo where
  type : String
  outer : String
  inner_range : String
  inner_expr : String
  pattern : String
deriving DecidableEq, Repr

/-- The double-summation pattern, attempted at one position: the literal
outer summation, optional spaces, the literal inner-summation opener, the
greedy run of non-closing-parenthesis characters (the range group), the
closing parenthesis, then the whitespace-then-rest group (the body). -/
def matchNestedAt (l : List Char) : Option (List Char × List Char) := do
  let l ← stripLit "Σ(i=1 to n)".toList l
  let l := dropSpaces l
  let l ← stripLit "Σ(j=".toList l
  let g1 := l.takeWhile (fun c => c ≠ ')')
  if g1.isEmpty then none else
  let l := l.drop g1.length
  let l ← stripLit ")".toList l
  let g2 ← tailGroup l
  some (g1, g2)

/-- re.search for the double-summation pattern. -/
def searchNested : List Char → Option (List Char × List Char)
  | [] => matchNestedAt []
  | c :: rest =>
    match matchNestedAt (c :: rest) with
    | some r => some r
    | none => searchNested rest

/-- identify_nested_summation: match the double-summation pattern, then test
the captured inner range for the literal triangular or rectangular markers.
(The markers tested include the j= prefix, which the capture group never
contains, so the two shape tests compare against a string that cannot hold
them for ordinary inputs.) -/
def identify_nested_summation (summation : String) : Option NestedInfo :=
  match searchNested summation.toList with
  | none => none
  | some (g1, g2) =>
    let inner_range := (pyStrip g1).asString
    let inner_expr := (pyStrip g2).asString
    if hasSubstrS "j=1 to i" inner_range || hasSubstrS "j=i to n" inner_range then
      some ⟨"nested", "i=1 to n", inner_range, inner_expr, "triangular"⟩
    else if hasSubstrS "j=1 to n" inner_range then
      some ⟨"nested", "i=1 to n", inner_range, inner_expr, "rectangular"⟩
    else none

/-- The result record of the summation resolver; optional fields are none
exactly when the corresponding Python dict omits the key. -/
structure SumResult where
  success : Bool
  original : Option String
  simplified : Option String
  complexity : Option String
  explanation : Option String
  steps : Option (List String)
  error : Option String
  suggestion : Option String
deriving DecidableEq, Repr

/-- solve_nested_summation: resolve a recognized nested shape with a
constant-cost body, or fail. -/
def solve_nested_summation (nested_info : NestedInfo) : SumResult :=
  let pattern := nested_info.pattern
  let inner_expr := nested_info.inner_expr
  if pattern = "triangular" ∧ (hasSubstrS "O(1)" inner_expr || inner_expr = "1") then
    ⟨true, none, some "n(n+1)/2", some "O(n²)",
      some "Sumatoria triangular donde la sumatoria interna depende del índice externo",
      some ["Sumatoria anidada: Σ(i=1 to n) Σ(j=1 to i) O(1)",
            "La sumatoria interna da: Σ(j=1 to i) O(1) = i",
            "Queda: Σ(i=1 to n) i",
            "Aplicando fórmula de suma aritmética: n(n+1)/2",
            "Por lo tanto: O(n²)"],
      none, none⟩
  else if pattern = "rectangular" ∧ (hasSubstrS "O(1)" inner_expr || inner_expr = "1") then
    ⟨true, none, some "n²", some "O(n²)",
      some "Sumatoria rectangular donde ambos loops van hasta n independientemente",
      some ["Sumatoria anidada: Σ(i=1 to n) Σ(j=1 to n) O(1)",
            "La sumatoria interna da: Σ(j=1 to n) O(1) = n",
            "Queda: Σ(i=1 to n) n = n × n",
            "Por lo tanto: O(n²)"],
      none, none⟩
  else
    ⟨false, none, none, none, none, none,
      some "Patrón de sumatoria anidada no reconocido", none⟩

/-- simplify_summation: normalize, try the nested shapes, then the fixed
pattern library, and otherwise fail with a suggestion. -/
def simplify_summation (summation : String) : SumResult :=
  let normalized := normalize_summation summation
  match identify_nested_summation normalized with
  | some ni => solve_nested_summation ni
  | none =>
    match KNOWN_PATTERNS.find? (fun p => hasSubstrS p.pattern normalized) with
    | some p =>
      ⟨true, some summation, some p.formula, some p.complexity, some p.description,
        some ["Identificado patrón: " ++ p.description,
              "Aplicando fórmula: " ++ p.formula,
              "Complejidad: " ++ p.complexity],
        none, none⟩
    | none =>
      ⟨false, some summation, none, none, none, none,
        some "No se reconoció el patrón de la sumatoria",
        some "Puede requerir análisis manual o método de sustitución"⟩

/-! ## AST data model (app/parsing/ast_nodes.py)

Expressions and statements are the tagged variants of the data model; Python
class names and attribute names are kept except where Lean reserves the word
(the ForLoop attribute named end becomes stop, the Variable attribute of
Assignment and the loop records keeps its role under the name written in the
comments).  Number values are modelled as integers: every numeric literal the
analyzed programs and claims use is an integer. -/

inductive Expr where
  | number (value : Int)
  | boolean (value : Bool)
  | null
  | variable (name : String) (indices : Option (List Expr)) (field : Option String)
      (field_indices : Option (List Expr)) (is_range : Bool)
      (range_start : Option Expr) (range_end : Option Expr)
  | binaryOp (operator : String) (left : Expr) (right : Expr)
  | unaryOp (operator : String) (operand : Expr)
  | functionCall (function_name : String) (arguments : List Expr)
  | length (v : Expr)
  | ceiling (expression : Expr)
  | floor (expression : Expr)

/-- A bare scalar Variable node: only the name, all optional attributes at
their defaults, as Variable(name=...) constructs one. -/
def mkVar (name : String) : Expr :=
  .variable name none none none false none none

mutual
inductive Stmt where
  | assignment (target : Expr) (value : Expr)
  | forLoop (var : String) (start : Expr) (stop : Expr) (body : Block)
  | whileLoop (condition : Expr) (body : Block)
  | repeatLoop (body : List Stmt) (condition : Expr)
  | ifStatement (condition : Expr) (then_block : Block) (else_block : Option Block)
  | callStatement (function_name : String) (arguments : List Expr)
  | returnStatement (value : Expr)
  | comment (text : String)
inductive Block where
  | mk (statements : List Stmt)
end

/-- The statement list a Block holds. -/
def Block.statements : Block → List Stmt
  | .mk s => s

structure Parameter where
  name : String
  param_type : String
  class_name : Option String
  dimensions : Option Nat

structure Declaration where
  name : String
  decl_type : String
  size : Option Expr
  class_name : Option String

structure Subroutine where
  name : String
  parameters : List Parameter
  declarations : List Declaration
  body : List Stmt

structure MainAlgorithm where
  declarations : List Declaration
  body : List Stmt

structure ClassDefinition where
  name : String
  attributes : List String

structure Algorithm where
  subroutines : List Subroutine
  main : MainAlgorithm

structure Program where
  classes : List ClassDefinition
  algorithm : Algorithm

/-! ## Expression rendering (ast_analyzer.py helpers)

_expression_to_string falls back to str(expr) for node kinds it does not
handle; str of an AST dataclass is the __repr__ the data model defines, so
the repr of every expression kind is embedded as well. -/

mutual
/-- _expression_to_string: the readable rendering of an expression. -/
def exprToString (e : Expr) : String :=
  match e with
  | .number v => intStr v
  | .variable name _ _ _ _ _ _ => name
  | .binaryOp op l r => exprToString l ++ " " ++ op ++ " " ++ exprToString r
  | .unaryOp op x => op ++ exprToString x
  | .functionCall fname args =>
    fname ++ "(" ++ String.intercalate ", " (exprToStringList args) ++ ")"
  | e => exprRepr e

/-- _expression_to_string mapped over an argument list. -/
def exprToStringList : List Expr → List String
  | [] => []
  | e :: es => exprToString e :: exprToStringList es

/-- The __repr__ of each expression node kind. -/
def exprRepr (e : Expr) : String :=
  match e with
  | .number v => "Number(" ++ intStr v ++ ")"
  | .boolean b => "Boolean(" ++ (if b then "True" else "False") ++ ")"
  | .null => "Null()"
  | .variable name indices field _ is_range rs re =>
    if (match indices with | some (_ :: _) => true | _ => false) then
      "Variable(" ++ name ++ "[...])"
    else if (match field with | some f => f != "" | none => false) then
      "Variable(" ++ name ++ "." ++ field.getD "" ++ ")"
    else if is_range then
      "Variable(" ++ name ++ "[" ++ exprReprOpt rs ++ ".." ++ exprReprOpt re ++ "])"
    else
      "Variable(" ++ name ++ ")"
  | .binaryOp op l r => "BinaryOp(" ++ exprRepr l ++ " " ++ op ++ " " ++ exprRepr r ++ ")"
  | .unaryOp op x => "UnaryOp(" ++ op ++ " " ++ exprRepr x ++ ")"
  | .functionCall fname args => "FunctionCall(" ++ fname ++ ", args=" ++ natStr args.length ++ ")"
  | .length v => "Length(" ++ exprRepr v ++ ")"
  | .ceiling x => "Ceiling(" ++ exprRepr x ++ ")"
  | .floor x => "Floor(" ++ exprRepr x ++ ")"

/-- The repr of an optional expression: None when absent. -/
def exprReprOpt : Option Expr → String
  | none => "None"
  | some e => exprRepr e
end

/-! ## Structural analyzers (app/analysis/tools/ast_analyzer.py) -/

/-- _expression_has_call: whether an expression contains a call to the named
function, descending only through BinaryOp and UnaryOp. -/
def _expression_has_call (expr : Expr) (func_name : String) : Bool :=
  match expr with
  | .functionCall fname _ => fname = func_name
  | .binaryOp _ l r =>
    _expression_has_call l func_name || _expression_has_call r func_name
  | .unaryOp _ x => _expression_has_call x func_name
  | _ => false

/-- _extract_call_args: the arguments of the first matching call found by a
left-to-right, outer-to-inner search through BinaryOp and UnaryOp. -/
def _extract_call_args (expr : Expr) (func_name : String) : List Expr :=
  match expr with
  | .functionCall fname args => if fname = func_name then args else []
  | .binaryOp _ l r =>
    let left_args := _extract_call_args l func_name
    if left_args.isEmpty then _extract_call_args r func_name else left_args
  | .unaryOp _ x => _extract_call_args x func_name
  | _ => []

/-- _args_to_string: render each argument expression. -/
def _args_to_string (args : List Expr) : List String :=
  args.map exprToString

/-- _has_recursion_in_block: whether a statement list holds a recursive call
at its own top level, checking only CallStatement, ReturnStatement and
Assignment (no descent into nested loops or if-statements). -/
def _has_recursion_in_block (statements : List Stmt) (func_name : String) : Bool :=
  match statements with
  | [] => false
  | stmt :: rest =>
    (match stmt with
     | .callStatement fname _ => fname = func_name
     | .returnStatement v => _expression_has_call v func_name
     | .assignment _ v => _expression_has_call v func_name
     | _ => false) || _has_recursion_in_block rest func_name

/-- _extract_return_value: the rendered value of the first ReturnStatement of
a statement list, None when there is none. -/
def _extract_return_value : List Stmt → Option String
  | [] => none
  | .returnStatement v :: _ => some (exprToString v)
  | _ :: rest => _extract_return_value rest

/-- The accumulator of the search_calls closure of find_recursive_calls: the
calls list (argument lists) and the positions list. -/
structure CallsState where
  calls : List (List Expr)
  positions : List String

/- The search_calls closure of find_recursive_calls: walk a statement list,
appending one record per statement that holds a recursive call, and recurse
into loop bodies and if branches.  The path index is the position within the
current list.  The single Python closure is split into the per-statement step
(searchStmt) and the list loop (searchGo), the same computation.  (For a
RepeatLoop the Python reads stmt.statements, an attribute the node does not
define, which would raise AttributeError; the walk into its statement list,
the body attribute, is modelled, and no claim exercises repeat loops.) -/
mutual
/-- The per-statement step of search_calls. -/
def searchStmt (func_name : String) (stmt : Stmt) (current_path : String)
    (st : CallsState) : CallsState :=
  match stmt with
  | .callStatement fname args =>
    if fname = func_name then
      ⟨st.calls ++ [args], st.positions ++ [current_path ++ ".call"]⟩
    else st
  | .returnStatement v =>
    if _expression_has_call v func_name then
      ⟨st.calls ++ [_extract_call_args v func_name],
       st.positions ++ [current_path ++ ".return"]⟩
    else st
  | .assignment _ v =>
    if _expression_has_call v func_name then
      ⟨st.calls ++ [_extract_call_args v func_name],
       st.positions ++ [current_path ++ ".assignment"]⟩
    else st
  | .forLoop _ _ _ (.mk bstmts) =>
    searchGo func_name bstmts 0 (current_path ++ ".for") st
  | .whileLoop _ (.mk bstmts) =>
    searchGo func_name bstmts 0 (current_path ++ ".while") st
  | .repeatLoop bstmts _ =>
    searchGo func_name bstmts 0 (current_path ++ ".repeat") st
  | .ifStatement _ (.mk tstmts) eb =>
    let st := searchGo func_name tstmts 0 (current_path ++ ".then") st
    (match eb with
     | some (.mk estmts) => searchGo func_name estmts 0 (current_path ++ ".else") st
     | none => st)
  | .comment _ => st

/-- The list loop of search_calls. -/
def searchGo (func_name : String) (stmts : List Stmt) (i : Nat) (path : String)
    (st : CallsState) : CallsState :=
  match stmts with
  | [] => st
  | stmt :: rest =>
    searchGo func_name rest (i + 1) path
      (searchStmt func_name stmt (path ++ "[" ++ natStr i ++ "]") st)
end

/-- The result record of find_recursive_calls. -/
structure RecCallsResult where
  count : Nat
  positions : List String
  arguments : List (List String)
deriving DecidableEq, Repr

/-- find_recursive_calls: count, positions and rendered arguments of the
recursive call records collected by the walk. -/
def find_recursive_calls (subroutine : Subroutine) : RecCallsResult :=
  let st := searchGo subroutine.name subroutine.body 0 "body" ⟨[], []⟩
  ⟨st.calls.length, st.positions, st.calls.map _args_to_string⟩

/-- The result record of detect_base_case; the exists key of the Python dict
is the field exists_ (Lean reserves the bare word). -/
structure BaseCaseResult where
  exists_ : Bool
  condition : Option String
  return_value : Option String
  position : Option String
deriving DecidableEq, Repr

/-- The scanning loop of detect_base_case over the top-level statements, with
the running index. -/
def detectGo (func_name : String) : List Stmt → Nat → BaseCaseResult
  | [], _ => ⟨false, none, none, none⟩
  | stmt :: rest, i =>
    match stmt with
    | .ifStatement cond (.mk tstmts) _ =>
      if _has_recursion_in_block tstmts func_name then
        detectGo func_name rest (i + 1)
      else
        ⟨true, some (exprToString cond), _extract_return_value tstmts,
         some ("body[" ++ natStr i ++ "].then")⟩
    | _ => detectGo func_name rest (i + 1)

/-- detect_base_case: the first top-level IfStatement whose then branch holds
no recursive call per _has_recursion_in_block. -/
def detect_base_case (subroutine : Subroutine) : BaseCaseResult :=
  detectGo subroutine.name subroutine.body 0

/-- One loop record of analyze_loops; the Python dict keys variable and end
are the fields variable_ and stop (Lean reserves both words). -/
structure LoopRec where
  type : String
  variable_ : String
  start : String
  stop : String
  nesting_level : Nat
  position : String
deriving DecidableEq, Repr

/-- The accumulator of analyze_loops: the loops_info list and the running
max_nesting of the closure. -/
structure LoopState where
  loops : List LoopRec
  maxNesting : Nat
deriving DecidableEq, Repr

/- The analyze_statements closure of analyze_loops.  The Python closure
raises max_nesting to the current nesting on entry and then walks the list;
here the entry update is inlined at each call site (the wrapper below and
each recursion into a body or branch), which is the same computation.
(As in searchGo, the walk into a RepeatLoop models the intended statement
list; the Python attribute access would raise.) -/
mutual
/-- The per-statement step of analyze_statements. -/
def analyzeStmt (stmt : Stmt) (current_path : String) (nesting : Nat)
    (st : LoopState) : LoopState :=
  match stmt with
  | .forLoop v s e (.mk bstmts) =>
    let st : LoopState :=
      ⟨st.loops ++ [⟨"FOR", v, exprToString s, exprToString e, nesting, current_path⟩],
       st.maxNesting⟩
    analyzeGo bstmts 0 (nesting + 1) (current_path ++ ".body")
      ⟨st.loops, max st.maxNesting (nesting + 1)⟩
  | .whileLoop _ (.mk bstmts) =>
    let st : LoopState :=
      ⟨st.loops ++ [⟨"WHILE", "condition-based", "unknown", "unknown", nesting, current_path⟩],
       st.maxNesting⟩
    analyzeGo bstmts 0 (nesting + 1) (current_path ++ ".body")
      ⟨st.loops, max st.maxNesting (nesting + 1)⟩
  | .repeatLoop bstmts _ =>
    let st : LoopState :=
      ⟨st.loops ++ [⟨"REPEAT", "condition-based", "unknown", "unknown", nesting, current_path⟩],
       st.maxNesting⟩
    analyzeGo bstmts 0 (nesting + 1) (current_path ++ ".body")
      ⟨st.loops, max st.maxNesting (nesting + 1)⟩
  | .ifStatement _ (.mk tstmts) eb =>
    let st := analyzeGo tstmts 0 nesting (current_path ++ ".then")
      ⟨st.loops, max st.maxNesting nesting⟩
    (match eb with
     | some (.mk estmts) =>
       analyzeGo estmts 0 nesting (current_path ++ ".else")
         ⟨st.loops, max st.maxNesting nesting⟩
     | none => st)
  | _ => st

/-- The list loop of the analyze_statements closure. -/
def analyzeGo (stmts : List Stmt) (i : Nat) (nesting : Nat) (path : String)
    (st : LoopState) : LoopState :=
  match stmts with
  | [] => st
  | stmt :: rest =>
    analyzeGo rest (i + 1) nesting path
      (analyzeStmt stmt (path ++ "[" ++ natStr i ++ "]") nesting st)
end

/-- analyze_statements: the closure entry point, raising max_nesting to the
current nesting before walking the list. -/
def analyzeStatements (stmts : List Stmt) (nesting : Nat) (path : String)
    (st : LoopState) : LoopState :=
  analyzeGo stmts 0 nesting path ⟨st.loops, max st.maxNesting nesting⟩

/-- The result record of analyze_loops. -/
structure LoopsResult where
  total_loops : Nat
  max_nesting : Nat
  loops : List LoopRec
deriving DecidableEq, Repr

/-- analyze_loops: walk the body from nesting zero and report the loop
inventory. -/
def analyze_loops (subroutine : Subroutine) : LoopsResult :=
  let st := analyzeStatements subroutine.body 0 "body" ⟨[], 0⟩
  ⟨st.loops.length, st.maxNesting, st.loops⟩

/-! ## Tree Builder expression folds (app/parsing/transformer.py)

A transformer callback receives the children of one parse-tree node: for
comparison, arithmetic and term an alternating operand/operator list (the
operator tokens are named in the grammar, so they reach the callback, and
the callback reads their string); for logical_or, logical_and and power the
operand list alone (the operator tokens there are anonymous and filtered by
the grammar).  An item is an operand expression or an operator token. -/

inductive TItem where
  | e (x : Expr)
  | tok (s : String)

/-- The operand/operator loop shared by comparison, arithmetic and term:
starting from the running result, consume an operator and its right operand
and fold them into a left-nested BinaryOp; a trailing lone item is dropped,
as the loop breaks when no right operand follows the operator.  (An operand
where an operator should stand cannot arise from the grammar.) -/
def chainLoop (result : Expr) : List TItem → Expr
  | .tok op :: .e right :: rest => chainLoop (.binaryOp op result right) rest
  | _ => result

/-- logical_or: fold the operand list left-to-right under the or operator. -/
def logical_or (items : List Expr) : Expr :=
  match items with
  | [] => .null
  | x :: rest => rest.foldl (fun result r => .binaryOp "or" result r) x

/-- logical_and: fold the operand list left-to-right under the and operator. -/
def logical_and (items : List Expr) : Expr :=
  match items with
  | [] => .null
  | x :: rest => rest.foldl (fun result r => .binaryOp "and" result r) x

/-- comparison: a single child passes through; otherwise fold the
operand/operator chain left-to-right.  (The last two alternatives cannot
arise from the grammar: a callback receives at least one child, and a chain
starts with an operand.) -/
def comparison : List TItem → TItem
  | [x] => x
  | .e first :: rest => .e (chainLoop first rest)
  | x :: _ => x
  | [] => .tok ""

/-- arithmetic: same fold as comparison, over additive operators. -/
def arithmetic : List TItem → TItem
  | [x] => x
  | .e first :: rest => .e (chainLoop first rest)
  | x :: _ => x
  | [] => .tok ""

/-- term: same fold as comparison, over multiplicative operators. -/
def term : List TItem → TItem
  | [x] => x
  | .e first :: rest => .e (chainLoop first rest)
  | x :: _ => x
  | [] => .tok ""

/-- power: fold the atom list right-to-left under the caret operator (the
loop of the source runs from the next-to-last atom down to the first,
wrapping the running result on the right). -/
def power : List Expr → Expr
  | [] => .null
  | [x] => x
  | x :: rest => .binaryOp "^" x (power rest)

/-- The alternating item list of a chain: a first operand then an
operator/operand pair per link. -/
def chainItems (x : Expr) (ps : List (String × Expr)) : List TItem :=
  .e x :: ps.foldr (fun p acc => .tok p.1 :: .e p.2 :: acc) []

/-! ## Concrete programs used by the claims -/

/-- The scalar variable n. -/
def nVar : Expr := mkVar "n"

/-- The factorial subroutine of the spec:
factorial(n) begin if (n <= 1) then return 1 else return n * factorial(n - 1) end. -/
def factorialSub : Subroutine :=
  ⟨"factorial", [⟨"n", "simple", none, none⟩], [],
   [.ifStatement (.binaryOp "<=" nVar (.number 1))
      (.mk [.returnStatement (.number 1)])
      (some (.mk [.returnStatement
        (.binaryOp "*" nVar (.functionCall "factorial" [.binaryOp "-" nVar (.number 1)]))]))]⟩

/-- The fibonacci subroutine of the spec:
fibonacci(n) begin if (n <= 1) then return n
else return fibonacci(n - 1) + fibonacci(n - 2) end. -/
def fibonacciSub : Subroutine :=
  ⟨"fibonacci", [⟨"n", "simple", none, none⟩], [],
   [.ifStatement (.binaryOp "<=" nVar (.number 1))
      (.mk [.returnStatement nVar])
      (some (.mk [.returnStatement
        (.binaryOp "+" (.functionCall "fibonacci" [.binaryOp "-" nVar (.number 1)])
                       (.functionCall "fibonacci" [.binaryOp "-" nVar (.number 2)]))]))]⟩

/-- The then branch of the base-case probe: an inner if whose then branch
returns f(n - 1), so the recursive call sits one if deeper. -/
def nestedThenStmts : List Stmt :=
  [.ifStatement (.binaryOp "<" nVar (.number 5))
     (.mk [.returnStatement (.functionCall "f" [.binaryOp "-" nVar (.number 1)])]) none]

/-- The base-case probe subroutine f: its only top-level if has a recursive
call inside a nested if of its then branch. -/
def nestedIfSub : Subroutine :=
  ⟨"f", [⟨"n", "simple", none, none⟩], [],
   [.ifStatement (.binaryOp ">" nVar (.number 0)) (.mk nestedThenStmts) none]⟩

/-- The double loop of the spec: FOR i := 1 to n containing FOR j := 1 to i
and no other statement. -/
def doubleLoopSub : Subroutine :=
  ⟨"g", [], [],
   [.forLoop "i" (.number 1) nVar
      (.mk [.forLoop "j" (.number 1) (mkVar "i") (.mk [])])]⟩

/- A statement list free of loops anywhere, including inside the branches of
its if-statements: the shape the loop-nesting claim quantifies over. -/
mutual
/-- No loop in the statement itself. -/
def loopFreeStmt : Stmt → Bool
  | .forLoop _ _ _ _ => false
  | .whileLoop _ _ => false
  | .repeatLoop _ _ => false
  | .ifStatement _ (.mk ts) eb =>
    loopFreeList ts && (match eb with | some (.mk es) => loopFreeList es | none => true)
  | _ => true
/-- No loop in any statement of the list. -/
def loopFreeList : List Stmt → Bool
  | [] => true
  | s :: rest => loopFreeStmt s && loopFreeList rest
end

/-! ## Helper lemmas -/

/-- Walking loop-free statements changes nothing once the running maximum has
reached the current nesting: no loop record is appended, and every nested
entry raises the maximum to a value it already has. -/
theorem analyzeGo_loopFree (stmts : List Stmt) (i nesting : Nat) (path : String) (st : LoopState)
    (hfree : loopFreeList stmts = true) (hn : nesting ≤ st.maxNesting) :
    analyzeGo stmts i nesting path st = st := by
  induction stmts, i, nesting, path, st using analyzeGo.induct
    (motive_1 := fun stmt cp nesting st =>
      loopFreeStmt stmt = true → nesting ≤ st.maxNesting → analyzeStmt stmt cp nesting st = st)
  case case1 =>
    rename_i hfree _
    simp [loopFreeStmt] at hfree
  case case2 =>
    rename_i hfree _
    simp [loopFreeStmt] at hfree
  case case3 =>
    rename_i hfree _
    simp [loopFreeStmt] at hfree
  case case4 =>
    rename_i stlet es ih2 ih1 hfree hn
    simp only [loopFreeStmt, Bool.and_eq_true] at hfree
    have hmax := max_eq_left hn
    have h1 := ih2 hfree.1 (Nat.le_max_right _ _)
    simp only [analyzeStmt]
    rw [h1]
    simp only [hmax]
    unfold stlet at ih1
    rw [h1] at ih1
    simp only [hmax] at ih1
    have h2 := ih1 hfree.2 (by exact hn)
    rw [h2]
  case case5 =>
    rename_i ih1 hfree hn
    simp only [loopFreeStmt, Bool.and_eq_true] at hfree
    have hmax := max_eq_left hn
    have h1 := ih1 hfree.1 (Nat.le_max_right _ _)
    simp only [analyzeStmt]
    rw [h1]
    simp only [hmax]
  case case6 =>
    rename_i t cp nst st hne1 hne2 hne3 hne4 hfree hn
    cases t with
    | assignment a b => rfl
    | callStatement a b => rfl
    | returnStatement a => rfl
    | comment a => rfl
    | forLoop a b c d =>
      cases d with
      | mk x => exact absurd rfl (hne1 a b c x)
    | whileLoop a b =>
      cases b with
      | mk x => exact absurd rfl (hne2 a x)
    | repeatLoop a b => exact absurd rfl (hne3 a b)
    | ifStatement a b c =>
      cases b with
      | mk x => exact absurd rfl (hne4 a x c)
  case case7 => rfl
  case case8 =>
    rename_i ihstmt ihrest
    simp only [loopFreeList, Bool.and_eq_true] at hfree
    have h1 := ihstmt hfree.1 hn
    show analyzeGo _ (_ + 1) _ _ _ = _
    rw [h1]
    rw [h1] at ihrest
    exact ihrest hfree.2 hn

/-- The base-case scan reports the first qualifying if-statement: if position
i holds an if whose then branch passes the shallow no-recursion check and
every earlier if fails it, the scan started at offset k stops there. -/
theorem detectGo_first (name : String) (body : List Stmt) :
    ∀ (k i : Nat) (c : Expr) (tb : List Stmt) (eb : Option Block),
      body.get? i = some (.ifStatement c (.mk tb) eb) →
      _has_recursion_in_block tb name = false →
      (∀ j, j < i → ∀ c2 tb2 eb2, body.get? j = some (.ifStatement c2 (.mk tb2) eb2) →
        _has_recursion_in_block tb2 name = true) →
      detectGo name body k = ⟨true, some (exprToString c), _extract_return_value tb,
        some ("body[" ++ natStr (k + i) ++ "].then")⟩ := by
  induction body with
  | nil =>
    intro k i c tb eb hget
    simp at hget
  | cons s rest ih =>
    intro k i c tb eb hget hnorec hfirst
    cases i with
    | zero =>
      simp only [List.get?_cons_zero, Option.some_inj] at hget
      subst hget
      simp [detectGo, hnorec]
    | succ i2 =>
      simp only [List.get?_cons_succ] at hget
      have hstep : ∀ r, detectGo name (s :: rest) k = r → True := fun _ _ => trivial
      cases s with
      | ifStatement c2 tb2 eb2 =>
        cases tb2 with
        | mk ts2 =>
          have hrec := hfirst 0 (by omega) c2 ts2 eb2 (by simp)
          have hrest := ih (k + 1) i2 c tb eb hget hnorec
            (fun j hj c3 tb3 eb3 hg => hfirst (j + 1) (by omega) c3 tb3 eb3 (by simpa using hg))
          simp only [detectGo, hrec, if_pos]
          rw [hrest]
          have : k + 1 + i2 = k + (i2 + 1) := by omega
          rw [this]
      | assignment a b =>
        have hrest := ih (k + 1) i2 c tb eb hget hnorec
          (fun j hj c3 tb3 eb3 hg => hfirst (j + 1) (by omega) c3 tb3 eb3 (by simpa using hg))
        simp only [detectGo]
        rw [hrest]
        have : k + 1 + i2 = k + (i2 + 1) := by omega
        rw [this]
      | forLoop a b c4 d =>
        have hrest := ih (k + 1) i2 c tb eb hget hnorec
          (fun j hj c3 tb3 eb3 hg => hfirst (j + 1) (by omega) c3 tb3 eb3 (by simpa using hg))
        simp only [detectGo]
        rw [hrest]
        have : k + 1 + i2 = k + (i2 + 1) := by omega
        rw [this]
      | whileLoop a b =>
        have hrest := ih (k + 1) i2 c tb eb hget hnorec
          (fun j hj c3 tb3 eb3 hg => hfirst (j + 1) (by omega) c3 tb3 eb3 (by simpa using hg))
        simp only [detectGo]
        rw [hrest]
        have : k + 1 + i2 = k + (i2 + 1) := by omega
        rw [this]
      | repeatLoop a b =>
        have hrest := ih (k + 1) i2 c tb eb hget hnorec
          (fun j hj c3 tb3 eb3 hg => hfirst (j + 1) (by omega) c3 tb3 eb3 (by simpa using hg))
        simp only [detectGo]
        rw [hrest]
        have : k + 1 + i2 = k + (i2 + 1) := by omega
        rw [this]
      | callStatement a b =>
        have hrest := ih (k + 1) i2 c tb eb hget hnorec
          (fun j hj c3 tb3 eb3 hg => hfirst (j + 1) (by omega) c3 tb3 eb3 (by simpa using hg))
        simp only [detectGo]
        rw [hrest]
        have : k + 1 + i2 = k + (i2 + 1) := by omega
        rw [this]
      | returnStatement a =>
        have hrest := ih (k + 1) i2 c tb eb hget hnorec
          (fun j hj c3 tb3 eb3 hg => hfirst (j + 1) (by omega) c3 tb3 eb3 (by simpa using hg))
        simp only [detectGo]
        rw [hrest]
        have : k + 1 + i2 = k + (i2 + 1) := by omega
        rw [this]
      | comment a =>
        have hrest := ih (k + 1) i2 c tb eb hget hnorec
          (fun j hj c3 tb3 eb3 hg => hfirst (j + 1) (by omega) c3 tb3 eb3 (by simpa using hg))
        simp only [detectGo]
        rw [hrest]
        have : k + 1 + i2 = k + (i2 + 1) := by omega
        rw [this]

/-- When every top-level if fails the shallow check, the scan reports no base
case. -/
theorem detectGo_none (name : String) (body : List Stmt) :
    ∀ (k : Nat),
      (∀ i c tb eb, body.get? i = some (.ifStatement c (.mk tb) eb) →
        _has_recursion_in_block tb name = true) →
      detectGo name body k = ⟨false, none, none, none⟩ := by
  induction body with
  | nil => intro k _; rfl
  | cons s rest ih =>
    intro k hall
    cases s with
    | ifStatement c2 tb2 eb2 =>
      cases tb2 with
      | mk ts2 =>
        have hrec := hall 0 c2 ts2 eb2 (by simp)
        simp only [detectGo, hrec, if_pos]
        exact ih (k + 1) (fun i c tb eb hg => hall (i + 1) c tb eb (by simpa using hg))
    | assignment a b =>
      exact ih (k + 1) (fun i c tb eb hg => hall (i + 1) c tb eb (by simpa using hg))
    | forLoop a b c4 d =>
      exact ih (k + 1) (fun i c tb eb hg => hall (i + 1) c tb eb (by simpa using hg))
    | whileLoop a b =>
      exact ih (k + 1) (fun i c tb eb hg => hall (i + 1) c tb eb (by simpa using hg))
    | repeatLoop a b =>
      exact ih (k + 1) (fun i c tb eb hg => hall (i + 1) c tb eb (by simpa using hg))
    | callStatement a b =>
      exact ih (k + 1) (fun i c tb eb hg => hall (i + 1) c tb eb (by simpa using hg))
    | returnStatement a =>
      exact ih (k + 1) (fun i c tb eb hg => hall (i + 1) c tb eb (by simpa using hg))
    | comment a =>
      exact ih (k + 1) (fun i c tb eb hg => hall (i + 1) c tb eb (by simpa using hg))

/-- The chain fold of the transformer equals a left fold over the links. -/
theorem chainLoop_fold (x : Expr) (ps : List (String × Expr)) :
    chainLoop x (ps.foldr (fun p acc => .tok p.1 :: .e p.2 :: acc) []) =
      ps.foldl (fun acc p => .binaryOp p.1 acc p.2) x := by
  induction ps generalizing x with
  | nil => rfl
  | cons p ps ih => simp only [List.foldr, List.foldl, chainLoop, ih]

/-- decDigit always yields an ASCII digit. -/
theorem decDigit_digit (d : Nat) : isDigitC (decDigit d) = true := by
  unfold decDigit
  repeat' split
  all_goals decide

/-- Every character of a rendered nonnegative integer is an ASCII digit. -/
theorem natToCharsAux_digits (fuel : Nat) :
    ∀ (n : Nat) (c : Char), c ∈ natToCharsAux fuel n → isDigitC c = true := by
  induction fuel with
  | zero =>
    intro n c h
    simp [natToCharsAux] at h
  | succ fuel ih =>
    intro n c h
    simp only [natToCharsAux] at h
    split at h
    · simp only [List.mem_singleton] at h
      subst h
      exact decDigit_digit _
    · simp only [List.mem_append, List.mem_singleton] at h
      rcases h with h | h
      · exact ih _ _ h
      · subst h
        exact decDigit_digit _

/-- An ASCII digit is not the dot character. -/
theorem digit_ne_dot (c : Char) (h : isDigitC c = true) : ¬ c = '.' := by
  intro hc
  subst hc
  simp [isDigitC] at h

/-- Replacement leaves a character without dot-zero-zero potential in place. -/
theorem replaceDot00_cons_ne_dot (c : Char) (hc : ¬ c = '.') (l : List Char) :
    replaceDot00 (c :: l) = c :: replaceDot00 l := by
  cases l with
  | nil => simp [replaceDot00]
  | cons a l2 =>
    cases l2 with
    | nil => simp [replaceDot00]
    | cons b l3 => simp [replaceDot00, hc]

/-- Replacement passes over a dot-free prefix. -/
theorem replaceDot00_append_no_dot (l1 : List Char) (h : ∀ c ∈ l1, ¬ c = '.')
    (l2 : List Char) : replaceDot00 (l1 ++ l2) = l1 ++ replaceDot00 l2 := by
  induction l1 with
  | nil => rfl
  | cons c t ih =>
    rw [List.cons_append, replaceDot00_cons_ne_dot c (h c (by simp)),
      ih (fun x hx => h x (by simp [hx])), List.cons_append]

/-- Removing the dot-zero-zero occurrences of a formatted two-decimal number
framed by the caret prefix and the log suffix keeps the frame: the result is
the frame around some middle text. -/
theorem replaceDot00_shape (ds : List Char) (hds : ∀ c ∈ ds, isDigitC c = true)
    (d1 d2 : Char) (h1 : isDigitC d1 = true) (h2 : isDigitC d2 = true) :
    ∃ t : List Char,
      replaceDot00 ('n' :: '^' :: (ds ++ '.' :: d1 :: d2 :: (" log n".toList))) =
        'n' :: '^' :: (t ++ (" log n".toList)) := by
  have hfront : ∀ c ∈ 'n' :: '^' :: ds, ¬ c = '.' := by
    intro c hc
    simp only [List.mem_cons] at hc
    rcases hc with rfl | rfl | hc
    · decide
    · decide
    · exact digit_ne_dot c (hds c hc)
  have hsplit : 'n' :: '^' :: (ds ++ '.' :: d1 :: d2 :: (" log n".toList)) =
      ('n' :: '^' :: ds) ++ ('.' :: d1 :: d2 :: (" log n".toList)) := by simp
  rw [hsplit, replaceDot00_append_no_dot _ hfront]
  by_cases h0 : d1 = '0' ∧ d2 = '0'
  · refine ⟨ds, ?_⟩
    have : replaceDot00 ('.' :: d1 :: d2 :: (" log n".toList)) = " log n".toList := by
      obtain ⟨rfl, rfl⟩ := h0
      decide
    rw [this]
    simp
  · refine ⟨ds ++ ['.', d1, d2], ?_⟩
    have hlog : replaceDot00 (" log n".toList) = " log n".toList := by decide
    have htail : replaceDot00 (d1 :: d2 :: (" log n".toList)) =
        d1 :: d2 :: (" log n".toList) := by
      rw [replaceDot00_cons_ne_dot d1 (digit_ne_dot d1 h1),
        replaceDot00_cons_ne_dot d2 (digit_ne_dot d2 h2), hlog]
    have hcond : ¬('.' = '.' ∧ d1 = '0' ∧ d2 = '0') := fun hc => h0 hc.2
    have hdot : replaceDot00 ('.' :: d1 :: d2 :: (" log n".toList)) =
        '.' :: d1 :: d2 :: (" log n".toList) := by
      show (if '.' = '.' ∧ d1 = '0' ∧ d2 = '0' then replaceDot00 (" log n".toList)
            else '.' :: replaceDot00 (d1 :: d2 :: (" log n".toList))) =
        '.' :: d1 :: d2 :: (" log n".toList)
      rw [if_neg hcond, htail]
    rw [hdot]
    simp

/-- A value below ten renders as its single digit. -/
theorem natToChars_lt_ten (n : Nat) (h : n < 10) : natToChars n = [decDigit n] := by
  simp [natToChars, natToCharsAux, h]

/-- The character list of a rendered list is itself. -/
theorem toList_asString (l : List Char) : (List.asString l).toList = l := rfl

/-- The character list of a concatenation is the concatenation of the
character lists. -/
theorem toList_append (a b : String) : (a ++ b).toList = a.toList ++ b.toList := rfl

/-- The two-decimal format is digits, a dot and two digits. -/
theorem fmt2_toList (q : ℚ) :
    (fmt2 q).toList =
      natToChars ((roundHalfEvenInt (qMul q (qOfNat 100))).toNat / 100) ++
        '.' :: decDigit ((roundHalfEvenInt (qMul q (qOfNat 100))).toNat % 100 / 10) ::
          decDigit ((roundHalfEvenInt (qMul q (qOfNat 100))).toNat % 10) :: [] := by
  show ((natToChars ((roundHalfEvenInt (qMul q (qOfNat 100))).toNat / 100)).asString ++ "." ++
      (natToChars ((roundHalfEvenInt (qMul q (qOfNat 100))).toNat % 100 / 10)).asString ++
      (natToChars ((roundHalfEvenInt (qMul q (qOfNat 100))).toNat % 10)).asString).toList = _
  rw [natToChars_lt_ten ((roundHalfEvenInt (qMul q (qOfNat 100))).toNat % 100 / 10) (by omega),
    natToChars_lt_ten ((roundHalfEvenInt (qMul q (qOfNat 100))).toNat % 10) (by omega),
    toList_append, toList_append, toList_append, toList_asString]
  simp
  rfl

/-! ## The claims -/

set_option maxRecDepth 8000

/-- Claim C1: the claim expects find_recursive_calls to return count 1 for
the factorial subroutine and count 2 for the fibonacci subroutine.  The code
returns count 1 for factorial as claimed, but also count 1 for fibonacci:
the walk appends one record per statement, and the single return statement
of fibonacci holding two recursive calls is recorded once (only the first
call's arguments are extracted). -/
theorem claim_C1_eval :
    find_recursive_calls factorialSub =
      ⟨1, ["body[0].else[0].return"], [["n - 1"]]⟩ ∧
    find_recursive_calls fibonacciSub =
      ⟨1, ["body[0].else[0].return"], [["n - 1"]]⟩ := by
  exact ⟨by decide, by decide⟩

/-- Claim C2, counterexample: apply_master_theorem on the recurrence text
with a = 1, b = 2 and constant cost does not return case 1 as the claim
states (the order 0 equals log_2(1) = 0 within the epsilon, so the code
classifies it as case 2). -/
theorem claim_C2_counterexample :
    (apply_master_theorem ("T(n) = T(n/2) + O(1)")).map MTResult.case ≠
      .ok (some 1) := by
  decide

/-- Claim C2, amended: apply_master_theorem on that recurrence returns a
success record with case 2 (the constant order 0 equals log_2(1) = 0 within
the comparison epsilon) and complexity string n^0 log n. -/
theorem claim_C2_amended :
    apply_master_theorem ("T(n) = T(n/2) + O(1)") = .ok
      ⟨true, some 2, some 1, some 2, some "1", some (qOfNat 0), some "n^0 log n",
       some "Caso 2: f(n) = Θ(1) = Θ(n^(log_2(1))). Por lo tanto, T(n) = Θ(n^0 log n)",
       none, none⟩ := by
  decide

/-- Claim C3: the claim expects the triangular nested summation to be
simplified to n(n+1)/2 with complexity O(n²).  The code instead returns the
structured failure: identify_nested_summation compares the literal marker
(with its j= prefix) against the captured range text 1 to i (which the
capture strips the prefix from), so the nested shape is never identified and
no library pattern matches the nested text either. -/
theorem claim_C3_eval :
    simplify_summation "Σ(i=1 to n) Σ(j=1 to i) O(1)" =
      ⟨false, some "Σ(i=1 to n) Σ(j=1 to i) O(1)", none, none, none, none,
       some "No se reconoció el patrón de la sumatoria",
       some "Puede requerir análisis manual o método de sustitución"⟩ := by
  decide

/-- Claim C4, counterexample: for the FOR i := 1 to n loop directly
containing a FOR j := 1 to i loop and nothing else, analyze_loops reports
max_nesting 2, not 1 as the claim states (the walk raises the counter on
entering the innermost loop body as well). -/
theorem claim_C4_counterexample :
    (analyze_loops doubleLoopSub).max_nesting = 2 ∧
    (analyze_loops doubleLoopSub).max_nesting ≠ 1 := by
  exact ⟨by decide, by decide⟩

/-- Claim C5: the claim states that every resolver returns a record and
never raises; apply_master_theorem on a recurrence that parses with divisor
b = 1 divides by math.log(1) = 0.0 and raises ZeroDivisionError. -/
theorem claim_C5_eval :
    apply_master_theorem ("T(n) = 2T(n/1) + O(n)") = .error .zeroDivisionError := by
  decide

/-- Claim C6: apply_master_theorem on the standard divide-and-conquer
recurrence with a = 2, b = 2 and linear cost returns a success record with
case 2, log_b_a = 1.0 and complexity n log n. -/
theorem claim_C6 :
    apply_master_theorem ("T(n) = 2T(n/2) + O(n)") = .ok
      ⟨true, some 2, some 2, some 2, some "n", some (qOfNat 1), some "n log n",
       some "Caso 2: f(n) = Θ(n) = Θ(n^(log_2(2))). Por lo tanto, T(n) = Θ(n log n)",
       none, none⟩ := by
  decide

/-- Claim C7: solve_by_substitution on the unit-decrement, constant-cost
recurrence succeeds with complexity O(n) and a steps trace of exactly four
lines by default. -/
theorem claim_C7 :
    (solve_by_substitution "T(n) = T(n-1) + O(1)").success = true ∧
    (solve_by_substitution "T(n) = T(n-1) + O(1)").complexity = some "O(n)" ∧
    (solve_by_substitution "T(n) = T(n-1) + O(1)").steps =
      some ["T(n) = T(n-1) + 1", "T(n) = T(n-1) + 1·c",
            "T(n) = T(n-2) + 2·c", "T(n) = T(n-3) + 3·c"] ∧
    ((solve_by_substitution "T(n) = T(n-1) + O(1)").steps).map List.length = some 4 := by
  exact ⟨by decide, by decide, by decide, by decide⟩

/-- Claim C9, counterexample: detect_base_case reports the only top-level if
of the probe subroutine as the base case, although its then branch does hold
a recursive call one if deeper, which the recursion predicate of
find_recursive_calls (the searchGo walk) does see: the block check of
detect_base_case looks only at the top level of the then branch, so the two
predicates differ and the claim fails. -/
theorem claim_C9_counterexample :
    detect_base_case nestedIfSub = ⟨true, some "n > 0", none, some "body[0].then"⟩ ∧
    (searchGo "f" nestedThenStmts 0 "body" ⟨[], []⟩).calls.length ≠ 0 := by
  exact ⟨by decide, by decide⟩

/-- Claim C4, amended: for a subroutine whose body is a FOR i := 1 to n loop
directly containing a FOR j := 1 to i loop and otherwise only loop-free
statements in the inner body, analyze_loops returns total_loops 2,
max_nesting 2, and records the outer loop at nesting_level 0 and the inner
loop at nesting_level 1. -/
theorem claim_C4_amended (name : String) (ps : List Parameter) (ds : List Declaration)
    (inner : List Stmt) (hfree : loopFreeList inner = true) :
    analyze_loops ⟨name, ps, ds,
      [.forLoop "i" (.number 1) nVar
        (.mk [.forLoop "j" (.number 1) (mkVar "i") (.mk inner)])]⟩ =
      ⟨2, 2, [⟨"FOR", "i", "1", "n", 0, "body[0]"⟩,
              ⟨"FOR", "j", "1", "i", 1, "body[0].body[0]"⟩]⟩ := by
  have key := analyzeGo_loopFree inner 0 2 "body[0].body[0].body"
    ⟨[⟨"FOR", "i", "1", "n", 0, "body[0]"⟩,
      ⟨"FOR", "j", "1", "i", 1, "body[0].body[0]"⟩], 2⟩ hfree (Nat.le_refl 2)
  have h0 : analyze_loops ⟨name, ps, ds,
      [.forLoop "i" (.number 1) nVar
        (.mk [.forLoop "j" (.number 1) (mkVar "i") (.mk inner)])]⟩ =
      ⟨(analyzeGo inner 0 2 "body[0].body[0].body"
          ⟨[⟨"FOR", "i", "1", "n", 0, "body[0]"⟩,
            ⟨"FOR", "j", "1", "i", 1, "body[0].body[0]"⟩], 2⟩).loops.length,
       (analyzeGo inner 0 2 "body[0].body[0].body"
          ⟨[⟨"FOR", "i", "1", "n", 0, "body[0]"⟩,
            ⟨"FOR", "j", "1", "i", 1, "body[0].body[0]"⟩], 2⟩).maxNesting,
       (analyzeGo inner 0 2 "body[0].body[0].body"
          ⟨[⟨"FOR", "i", "1", "n", 0, "body[0]"⟩,
            ⟨"FOR", "j", "1", "i", 1, "body[0].body[0]"⟩], 2⟩).loops⟩ := rfl
  rw [h0, key]
  rfl

/-- Claim C4, witness: the amended statement evaluated at the double loop
with empty inner body. -/
theorem claim_C4_witness :
    loopFreeList [] = true ∧
    analyze_loops ⟨"g", [], [],
      [.forLoop "i" (.number 1) nVar
        (.mk [.forLoop "j" (.number 1) (mkVar "i") (.mk [])])]⟩ =
      ⟨2, 2, [⟨"FOR", "i", "1", "n", 0, "body[0]"⟩,
              ⟨"FOR", "j", "1", "i", 1, "body[0].body[0]"⟩]⟩ :=
  ⟨by decide, claim_C4_amended "g" [] [] [] (by decide)⟩

/-- Claim C8: the comparison, arithmetic and term callbacks fold their
operand/operator chains left-to-right into nested BinaryOp nodes, logical_or
and logical_and fold their operand lists left-to-right, and power folds
right-to-left, so the three-atom chain a^b^c is built as
BinaryOp ^ a (BinaryOp ^ b c). -/
theorem claim_C8 :
    (∀ (x : Expr) (ps : List (String × Expr)),
      comparison (chainItems x ps) =
        .e (ps.foldl (fun acc p => .binaryOp p.1 acc p.2) x) ∧
      arithmetic (chainItems x ps) =
        .e (ps.foldl (fun acc p => .binaryOp p.1 acc p.2) x) ∧
      term (chainItems x ps) =
        .e (ps.foldl (fun acc p => .binaryOp p.1 acc p.2) x)) ∧
    (∀ (x : Expr) (rest : List Expr),
      logical_or (x :: rest) = rest.foldl (fun r y => .binaryOp "or" r y) x ∧
      logical_and (x :: rest) = rest.foldl (fun r y => .binaryOp "and" r y) x) ∧
    (∀ a b c : Expr, power [a, b, c] = .binaryOp "^" a (.binaryOp "^" b c)) := by
  refine ⟨?_, fun x rest => ⟨rfl, rfl⟩, fun a b c => rfl⟩
  intro x ps
  cases ps with
  | nil => exact ⟨rfl, rfl, rfl⟩
  | cons p ps =>
    exact ⟨congrArg TItem.e (chainLoop_fold x (p :: ps)),
      congrArg TItem.e (chainLoop_fold x (p :: ps)),
      congrArg TItem.e (chainLoop_fold x (p :: ps))⟩

/-- Claim C8, witness: the folds evaluated on a concrete three-link additive
chain and the three-atom power chain. -/
theorem claim_C8_witness :
    arithmetic (chainItems (mkVar "a") [("+", mkVar "b"), ("-", mkVar "c")]) =
      .e (.binaryOp "-" (.binaryOp "+" (mkVar "a") (mkVar "b")) (mkVar "c")) ∧
    power [mkVar "a", mkVar "b", mkVar "c"] =
      .binaryOp "^" (mkVar "a") (.binaryOp "^" (mkVar "b") (mkVar "c")) :=
  ⟨((claim_C8.1 (mkVar "a") [("+", mkVar "b"), ("-", mkVar "c")]).2.1).trans rfl,
   claim_C8.2.2 (mkVar "a") (mkVar "b") (mkVar "c")⟩

/-- Claim C9, amended: detect_base_case reports as the base case the first
top-level IfStatement whose then branch passes the shallow top-level check
_has_recursion_in_block (which does not look inside nested loops or ifs of
the then branch), reporting its condition text, the first top-level return
of the then branch, and its position; when every top-level if fails that
shallow check (or there is none), it reports exists_ false. -/
theorem claim_C9_amended :
    (∀ (name : String) (ps : List Parameter) (ds : List Declaration)
       (body : List Stmt) (i : Nat) (c : Expr) (tb : List Stmt) (eb : Option Block),
      body.get? i = some (.ifStatement c (.mk tb) eb) →
      _has_recursion_in_block tb name = false →
      (∀ j, j < i → ∀ c2 tb2 eb2,
        body.get? j = some (.ifStatement c2 (.mk tb2) eb2) →
        _has_recursion_in_block tb2 name = true) →
      detect_base_case ⟨name, ps, ds, body⟩ =
        ⟨true, some (exprToString c), _extract_return_value tb,
         some ("body[" ++ natStr i ++ "].then")⟩) ∧
    (∀ (name : String) (ps : List Parameter) (ds : List Declaration) (body : List Stmt),
      (∀ i c tb eb, body.get? i = some (.ifStatement c (.mk tb) eb) →
        _has_recursion_in_block tb name = true) →
      detect_base_case ⟨name, ps, ds, body⟩ = ⟨false, none, none, none⟩) := by
  constructor
  · intro name ps ds body i c tb eb hget hnorec hfirst
    have h := detectGo_first name body 0 i c tb eb hget hnorec hfirst
    rw [Nat.zero_add] at h
    exact h
  · intro name ps ds body hall
    exact detectGo_none name body 0 hall

/-- Claim C9, witness: the amended first-match statement evaluated on the
factorial subroutine, whose only top-level if passes the shallow check. -/
theorem claim_C9_witness :
    detect_base_case factorialSub =
      ⟨true, some "n <= 1", some "1", some "body[0].then"⟩ := by
  have h := claim_C9_amended.1 "factorial" factorialSub.parameters [] factorialSub.body 0
    (.binaryOp "<=" nVar (.number 1)) [.returnStatement (.number 1)]
    (some (.mk [.returnStatement (.binaryOp "*" nVar
      (.functionCall "factorial" [.binaryOp "-" nVar (.number 1)]))]))
    rfl (by decide) (fun j hj => absurd hj (by omega))
  exact h.trans (by decide)

/-- Claim C10, counterexample: the recurrence below parses with a = 2, b = 1
and a cost x that is neither tabulated nor carries an explicit exponent, yet
apply_master_theorem does not return a Case-2 success record: dividing by
math.log(1) = 0.0 raises ZeroDivisionError. -/
theorem claim_C10_counterexample :
    extract_recurrence_params "T(n) = 2T(n/1) + O(x)" = some ⟨2, 1, "x"⟩ ∧
    function_orders_get (pyLower "x") = none ∧
    searchOrderExp "x".toList = none ∧
    apply_master_theorem ("T(n) = 2T(n/1) + O(x)") = .error .zeroDivisionError := by
  exact ⟨by decide, by decide, by decide, by decide⟩

/-- Claim C10, amended: for every recurrence string that parses as
T(n) = aT(n/b) + O(f) with a ≥ 1 and b ≥ 2 where f is neither a tabulated
order nor carries an explicit exponent after the letter n, the order of f
cannot be determined, the comparison defaults to Case 2, and
apply_master_theorem returns success with a complexity of the shape
n log n or n^t log n, regardless of what f actually is. -/
theorem claim_C10_amended (s : String) (a b : Nat) (f : String)
    (hp : extract_recurrence_params s = some ⟨a, b, f⟩)
    (hmiss : function_orders_get (pyLower f) = none)
    (hre : searchOrderExp f.toList = none)
    (ha : 1 ≤ a) (hb : 2 ≤ b) :
    ∃ r, apply_master_theorem s = .ok r ∧ r.success = true ∧ r.case = some 2 ∧
      (r.complexity = some "n log n" ∨
       ∃ t, r.complexity = some ("n^" ++ t ++ " log n")) := by
  have hlog : mathLogDiv a b = .ok (floatLogDiv a b) := by
    unfold mathLogDiv
    rw [if_neg (by omega), if_neg (by omega), if_neg (by omega)]
  have hcase : compare_functions f (floatLogDiv a b) = "case2" := by
    simp only [compare_functions, hmiss, hre]
    rfl
  simp only [apply_master_theorem, hp, hlog, hcase]
  rw [if_pos trivial]
  refine ⟨_, rfl, rfl, rfl, ?_⟩
  by_cases h1 : floatLogDiv a b = qOfNat 1
  · left
    simp [h1]
  · right
    rw [if_neg h1]
    obtain ⟨t, ht⟩ := replaceDot00_shape
      (natToChars ((roundHalfEvenInt (qMul (floatLogDiv a b) (qOfNat 100))).toNat / 100))
      (fun ch hch => natToCharsAux_digits _ _ ch hch)
      (decDigit ((roundHalfEvenInt (qMul (floatLogDiv a b) (qOfNat 100))).toNat % 100 / 10))
      (decDigit ((roundHalfEvenInt (qMul (floatLogDiv a b) (qOfNat 100))).toNat % 10))
      (decDigit_digit _) (decDigit_digit _)
    refine ⟨t.asString, ?_⟩
    have hdata : ("n^" ++ fmt2 (floatLogDiv a b) ++ " log n").toList =
        'n' :: '^' ::
          (natToChars ((roundHalfEvenInt (qMul (floatLogDiv a b) (qOfNat 100))).toNat / 100) ++
            '.' :: decDigit ((roundHalfEvenInt (qMul (floatLogDiv a b) (qOfNat 100))).toNat % 100 / 10) ::
              decDigit ((roundHalfEvenInt (qMul (floatLogDiv a b) (qOfNat 100))).toNat % 10) ::
                (" log n".toList)) := by
      rw [toList_append, toList_append, fmt2_toList]
      simp
    have hrepl : pyReplaceDot00 ("n^" ++ fmt2 (floatLogDiv a b) ++ " log n") =
        ('n' :: '^' :: (t ++ " log n".toList)).asString := by
      unfold pyReplaceDot00
      rw [hdata, ht]
    rw [hrepl]
    rfl

/-- Claim C10, witness: the amended statement evaluated at a recurrence with
divisor 2 and the unrecognized cost n log log n, which lands in the
first complexity shape. -/
theorem claim_C10_witness :
    ∃ r, apply_master_theorem ("T(n) = 2T(n/2) + O(n log log n)") = .ok r ∧
      r.success = true ∧ r.case = some 2 ∧
      (r.complexity = some "n log n" ∨
       ∃ t, r.complexity = some ("n^" ++ t ++ " log n")) :=
  claim_C10_amended "T(n) = 2T(n/2) + O(n log log n)" 2 2 "n log log n"
    (by decide) (by decide) (by decide) (by decide) (by decide)

end AlgoAnalysis
